import Mathlib

/-!
# Verification of the 2D alignment driver (`scripts/2d_align_driver.py`)

The driver is a straight-line script: it parses command-line arguments,
creates the workspace directory when it does not exist, and then invokes
five external pipeline stages in sequence
(`filter_tiles`, `create_sift_features`, `match_sift_features`,
`json_concat`, `optimize_montage_transform`).  Each stage is an opaque
external unit of work; the driver only constructs paths and forwards
arguments.

We embed the driver shallowly:

* `Args` mirrors the argparse configuration with its default values
  (the script is Python 2; `sys.maxint` is modelled by the parameter
  `wordBits`, the platform word width).
* `Event` records one external invocation together with the exact
  argument tuple the driver passes at that call site.
* `runDriver` produces the trace of invocations of one run.  External
  stages signal success or failure through their process exit status; we
  model that environment as an oracle `ok : Event → Bool`.  An uncaught
  Python exception aborts the script, so execution stops at the first
  failing invocation and the run's boolean result is `false`
  (a non-zero process exit).

Path construction (`os.path.join`) and guarded directory creation
(`os.path.exists` / `os.makedirs`) are embedded faithfully from their
POSIX semantics.
-/

/-- Whether a string starts with the character `/`. -/
def startsWithSlash (s : String) : Bool :=
  match s.data with
  | [] => false
  | c :: _ => c = '/'

/-- Whether a string ends with the character `/`. -/
def endsWithSlash (s : String) : Bool :=
  s.data.getLast? = some '/'

/-- POSIX `os.path.join(a, b)`: an absolute second component replaces the
first; otherwise the two are concatenated, inserting `/` unless the first
component is empty or already ends with `/`. -/
def osPathJoin (a b : String) : String :=
  if startsWithSlash b then b
  else if a = "" ∨ endsWithSlash a then a ++ b
  else a ++ "/" ++ b

/-- `sys.maxint` of a Python 2 interpreter on a platform whose signed
machine word has `wordBits` bits. -/
def sysMaxint (wordBits : Nat) : Int := 2 ^ (wordBits - 1) - 1

/-- Default of the `--bounding_box` option (source line 38):
`'{0} {1} {2} {3}'.format((-sys.maxint - 1), sys.maxint, (-sys.maxint - 1), sys.maxint)`. -/
def default_bounding_box (maxint : Int) : String :=
  toString (-maxint - 1) ++ " " ++ toString maxint ++ " " ++
    toString (-maxint - 1) ++ " " ++ toString maxint

/-- The smallest representable signed integer of a `wordBits`-bit word
(the spec's "representable minimum numeric bound"). -/
def intMin (wordBits : Nat) : Int := -(2 ^ (wordBits - 1))

/-- The largest representable signed integer of a `wordBits`-bit word
(the spec's "representable maximum numeric bound"). -/
def intMax (wordBits : Nat) : Int := 2 ^ (wordBits - 1) - 1

/-- The parsed command-line arguments of the driver, with the argparse
defaults of source lines 22-38.  The default bounding box is taken for a
64-bit platform. -/
structure Args where
  tiles_fname : String
  workspace_dir : String := "."
  render : Bool := false
  output_file_name : String := "output.json"
  jar_file : String := "../target/render-0.0.1-SNAPSHOT.jar"
  bounding_box : String := default_bounding_box (sysMaxint 64)
  deriving DecidableEq, Repr

/-- One external invocation performed by the driver, with the exact
argument tuple of the call site. -/
inductive Event where
  /-- `os.makedirs(args.workspace_dir)` (source line 46). -/
  | makedirs (dir : String)
  /-- `filter_tiles(args.tiles_fname, filter_dir, args.bounding_box)` (source line 50). -/
  | filter_tiles (tiles_fname : String) (filter_dir : String) (bounding_box : String)
  /-- `create_sift_features(filter_dir, sift_dir, args.jar_file)` (source line 55). -/
  | create_sift_features (filter_dir : String) ( sift_dir : String) (jar_file : String)
  /-- `match_sift_features(filter_dir, sift_dir, match_dir, args.jar_file)` (source line 59). -/
  | match_sift_features (filter_dir : String) ( sift_dir : String) (match_dir : String)
      (jar_file : String)
  /-- `json_concat(match_dir, correspondent_fname)` (source line 63). -/
  | json_concat (match_dir : String) (correspondent_fname : String)
  /-- `optimize_montage_transform(correspondent_fname, args.tiles_fname, optmon_fname, args.jar_file)` (source line 67). -/
  | optimize_montage_transform (correspondent_fname : String) (tiles_fname : String)
      (optmon_fname : String) (jar_file : String)
  /-- Modelled from the spec: the render operation of behavior step 7
  ("If `renderFlag`: invoke a render operation on `optimizedFile`
  producing `outputFileName`"), which has no counterpart in the driver
  source. -/
  | render (optimized_fname : String) (output_file_name : String) (jar_file : String)
  deriving DecidableEq, Repr

/-- `filter_dir = os.path.join(args.workspace_dir, "filterd")` (source line 49). -/
def filter_dir (w : String) : String := osPathJoin w "filterd"

/-- `sift_dir = os.path.join(args.workspace_dir, "sifts")` (source line 54). -/
def sift_dir (w : String) : String := osPathJoin w "sifts"

/-- `match_dir = os.path.join(args.workspace_dir, "sift_matches")` (source line 58). -/
def match_dir (w : String) : String := osPathJoin w "sift_matches"

/-- `correspondent_fname = os.path.join(args.workspace_dir, "all_correspondent.json")` (source line 62). -/
def correspondent_fname (w : String) : String := osPathJoin w "all_correspondent.json"

/-- `optmon_fname = os.path.join(args.workspace_dir, "optimized_montage.json")` (source line 66). -/
def optmon_fname (w : String) : String := osPathJoin w "optimized_montage.json"

/-- The invocations the script body performs, in program order.  The
conditional `makedirs` reflects the guard
`if not os.path.exists(args.workspace_dir)` (source line 45);
`dirExists` is the value of that `os.path.exists` test.  The script ends
after `optimize_montage_transform`: no further statement follows source
line 67, in particular `args.render` and `args.output_file_name` are
never read after parsing. -/
def plannedEvents (args : Args) (dirExists : Bool) : List Event :=
  (if dirExists then [] else [Event.makedirs args.workspace_dir]) ++
  [Event.filter_tiles args.tiles_fname (filter_dir args.workspace_dir) args.bounding_box,
   Event.create_sift_features (filter_dir args.workspace_dir) (sift_dir args.workspace_dir)
     args.jar_file,
   Event.match_sift_features (filter_dir args.workspace_dir) (sift_dir args.workspace_dir)
     (match_dir args.workspace_dir) args.jar_file,
   Event.json_concat (match_dir args.workspace_dir) (correspondent_fname args.workspace_dir),
   Event.optimize_montage_transform (correspondent_fname args.workspace_dir) args.tiles_fname
     (optmon_fname args.workspace_dir) args.jar_file]

/-- Run a list of invocations in order.  Each invocation blocks until the
external process finishes; `ok e = false` models a raised exception
(non-zero exit status of the stage), which the script does not catch, so
execution stops right after the failing invocation and the result flag is
`false` (the process exits non-zero). -/
def runSeq (ok : Event → Bool) : List Event → List Event × Bool
  | [] => ([], true)
  | e :: es =>
    if ok e then
      let r := runSeq ok es
      (e :: r.1, r.2)
    else ([e], false)

/-- One run of the driver script under environment oracle `ok`: the trace
of external invocations actually performed, and whether the process
exited successfully. -/
def runDriver (args : Args) (dirExists : Bool) (ok : Event → Bool) : List Event × Bool :=
  runSeq ok (plannedEvents args dirExists)

/-- Whether an invocation is one of the five pipeline stages (directory
creation and the spec-only render operation are not stages). -/
def Event.isStage : Event → Bool
  | .filter_tiles .. => true
  | .create_sift_features .. => true
  | .match_sift_features .. => true
  | .json_concat .. => true
  | .optimize_montage_transform .. => true
  | _ => false

/-- Whether an invocation is a render operation. -/
def Event.isRender : Event → Bool
  | .render .. => true
  | _ => false

/-- The argument(s) of an invocation that stand in output position: the
path(s) the invoked operation is asked to produce, per the call-site
contract of each stage. -/
def Event.outputPaths : Event → List String
  | .makedirs d => [d]
  | .filter_tiles _ out _ => [out]
  | .create_sift_features _ out _ => [out]
  | .match_sift_features _ _ out _ => [out]
  | .json_concat _ out => [out]
  | .optimize_montage_transform _ _ out _ => [out]
  | .render _ out _ => [out]

/-- The output argument of a pipeline stage (none for non-stage events). -/
def Event.stageOutput : Event → Option String
  | .filter_tiles _ out _ => some out
  | .create_sift_features _ out _ => some out
  | .match_sift_features _ _ out _ => some out
  | .json_concat _ out => some out
  | .optimize_montage_transform _ _ out _ => some out
  | _ => none

/-- All output-position paths of a trace. -/
def outputsOf (tr : List Event) : List String :=
  tr.foldr (fun e acc => e.outputPaths ++ acc) []

/-- The paths the driver itself derives under the workspace directory,
together with the workspace directory itself. -/
def workspacePaths (w : String) : List String :=
  [w, filter_dir w, sift_dir w, match_dir w, correspondent_fname w, optmon_fname w]

/-!
## Directory-creation model

For the guarded `os.makedirs` call (source lines 45-46) we model the
filesystem as the list of directory paths that exist, each path given as
its list of components (the segments between `/`).  `os.makedirs` in
Python 2 creates the directory and every missing ancestor, and raises
`OSError` when the directory itself already exists (there is no
`exist_ok`).
-/

/-- Every ancestor of a path (inclusive), shortest first: the prefixes of
its component list. -/
def pathAncestors (cs : List String) : List (List String) :=
  (List.range cs.length).map (fun i => cs.take (i + 1))

/-- `os.makedirs`: fails if the directory exists, otherwise creates it
together with every missing ancestor. -/
def makedirs (fs : List (List String)) (cs : List String) :
    Except Unit (List (List String)) :=
  if cs ∈ fs then Except.error ()
  else Except.ok (fs ++ (pathAncestors cs).filter (fun p => decide (p ∉ fs)))

/-- Source lines 45-46:
`if not os.path.exists(args.workspace_dir): os.makedirs(args.workspace_dir)`.
The membership test `cs ∈ fs` is `os.path.exists`. -/
def ensure_workspace_dir (fs : List (List String)) (cs : List String) :
    Except Unit (List (List String)) :=
  if cs ∈ fs then Except.ok fs else makedirs fs cs

example : osPathJoin "." "filterd" = "./filterd" := by decide
example : osPathJoin "a/" "filterd" = "a/filterd" := by decide
example : osPathJoin "" "filterd" = "filterd" := by decide
example : osPathJoin "a" "/x" = "/x" := by decide

/-! ## Helper lemmas -/

theorem String.append_cancel_left {p a b : String} (h : p ++ a = p ++ b) : a = b := by
  apply String.ext
  have hd : p.data ++ a.data = p.data ++ b.data := by
    rw [← String.data_append, ← String.data_append, h]
  exact List.append_cancel_left hd

theorem osPathJoin_eq {a : String} (b : String) (h1 : a ≠ "")
    (h2 : endsWithSlash a = false) (h3 : startsWithSlash b = false) :
    osPathJoin a b = a ++ "/" ++ b := by
  unfold osPathJoin
  rw [h3]
  simp [h1, h2]

theorem osPathJoin_right_inj {a b1 b2 : String} (h1 : startsWithSlash b1 = false)
    (h2 : startsWithSlash b2 = false) (h : osPathJoin a b1 = osPathJoin a b2) : b1 = b2 := by
  unfold osPathJoin at h
  rw [h1, h2] at h
  simp only [Bool.false_eq_true, if_false] at h
  by_cases hc : a = "" ∨ endsWithSlash a = true
  · rw [if_pos hc, if_pos hc] at h
    exact String.append_cancel_left h
  · rw [if_neg hc, if_neg hc] at h
    exact String.append_cancel_left h

theorem runSeq_all_ok (ok : Event → Bool) :
    ∀ es : List Event, (∀ e ∈ es, ok e = true) → runSeq ok es = (es, true) := by
  intro es
  induction es with
  | nil => intro _; rfl
  | cons e es ih =>
    intro h
    have he : ok e = true := h e (List.mem_cons_self e es)
    have hes : ∀ x ∈ es, ok x = true := fun x hx => h x (List.mem_cons_of_mem e hx)
    simp [runSeq, he, ih hes]

theorem runSeq_mem {ok : Event → Bool} :
    ∀ {es : List Event} {x : Event}, x ∈ (runSeq ok es).1 → x ∈ es := by
  intro es
  induction es with
  | nil => intro x hx; simp [runSeq] at hx
  | cons e es ih =>
    intro x hx
    by_cases he : ok e = true
    · simp only [runSeq, he, if_true] at hx
      rcases List.mem_cons.mp hx with h | h
      · exact h ▸ List.mem_cons_self e es
      · exact List.mem_cons_of_mem e (ih h)
    · simp only [runSeq, he, if_false] at hx
      rcases List.mem_cons.mp hx with h | h
      · exact h ▸ List.mem_cons_self e es
      · exact absurd h (List.not_mem_nil x)

theorem runSeq_false {ok : Event → Bool} :
    ∀ {es : List Event}, (runSeq ok es).2 = false →
      ∃ pre fe post, es = pre ++ fe :: post ∧ (∀ x ∈ pre, ok x = true) ∧
        ok fe = false ∧ (runSeq ok es).1 = pre ++ [fe] := by
  intro es
  induction es with
  | nil => intro h; simp [runSeq] at h
  | cons e es ih =>
    intro h
    by_cases he : ok e = true
    · simp only [runSeq, he, if_true] at h ⊢
      obtain ⟨pre, fe, post, heq, hpre, hfe, htr⟩ := ih h
      refine ⟨e :: pre, fe, post, by rw [heq]; rfl, ?_, hfe, by simp [htr]⟩
      intro x hx
      rcases List.mem_cons.mp hx with hx | hx
      · exact hx ▸ he
      · exact hpre x hx
    · have he' : ok e = false := by simpa using he
      refine ⟨[], e, es, rfl, by simp, he', ?_⟩
      simp [runSeq, he']

theorem runSeq_true_all (ok : Event → Bool) :
    ∀ es : List Event, (runSeq ok es).2 = true → ∀ e ∈ es, ok e = true := by
  intro es
  induction es with
  | nil => intro _ e he; exact absurd he (List.not_mem_nil e)
  | cons e es ih =>
    intro h x hx
    by_cases he : ok e = true
    · simp only [runSeq, he, if_true] at h
      rcases List.mem_cons.mp hx with hx | hx
      · exact hx ▸ he
      · exact ih h x hx
    · simp [runSeq, he] at h

theorem mem_outputsOf {x : String} :
    ∀ {tr : List Event}, x ∈ outputsOf tr → ∃ e ∈ tr, x ∈ e.outputPaths := by
  intro tr
  induction tr with
  | nil => intro h; simp [outputsOf] at h
  | cons e es ih =>
    intro h
    rcases List.mem_append.mp h with h | h
    · exact ⟨e, List.mem_cons_self e es, h⟩
    · obtain ⟨e', he', hx⟩ := ih h
      exact ⟨e', List.mem_cons_of_mem e he', hx⟩

theorem osPathJoin_ne (w : String) {b1 b2 : String} (h1 : startsWithSlash b1 = false)
    (h2 : startsWithSlash b2 = false) (hne : b1 ≠ b2) :
    osPathJoin w b1 ≠ osPathJoin w b2 :=
  fun h => hne (osPathJoin_right_inj h1 h2 h)

/-! ## Claim theorems -/

/-- C2: every run invokes exactly the five stages filter, feature
extraction, matching, concatenation, optimization, each exactly once, in
that order, with the argument tuples
`(tileSpecPath, filteredDir, boundingBox)`,
`(filteredDir, siftDir, jarPath)`,
`(filteredDir, siftDir, matchDir, jarPath)`,
`(matchDir, correspondenceFile)` and
`(correspondenceFile, tileSpecPath, optimizedFile, jarPath)`.  The stages
appear in the trace in this order, and since `runSeq` only starts an
invocation after the previous one has returned successfully, no stage is
invoked before the previous one has completed. -/
theorem driver_invokes_stages_in_order (args : Args) (dirExists : Bool) (ok : Event → Bool)
    (h : ∀ e, ok e = true) :
    (runDriver args dirExists ok).1.filter Event.isStage =
      [Event.filter_tiles args.tiles_fname (filter_dir args.workspace_dir) args.bounding_box,
       Event.create_sift_features (filter_dir args.workspace_dir) (sift_dir args.workspace_dir)
         args.jar_file,
       Event.match_sift_features (filter_dir args.workspace_dir) (sift_dir args.workspace_dir)
         (match_dir args.workspace_dir) args.jar_file,
       Event.json_concat (match_dir args.workspace_dir) (correspondent_fname args.workspace_dir),
       Event.optimize_montage_transform (correspondent_fname args.workspace_dir) args.tiles_fname
         (optmon_fname args.workspace_dir) args.jar_file] ∧
    (runDriver args dirExists ok).2 = true := by
  have hall := runSeq_all_ok ok (plannedEvents args dirExists) (fun e _ => h e)
  unfold runDriver
  rw [hall]
  refine ⟨?_, rfl⟩
  cases dirExists <;> simp [plannedEvents, Event.isStage]

def argsW : Args := { tiles_fname := "tiles.json" }

theorem driver_invokes_stages_in_order_witness :
    (∀ e : Event, (fun _ => true) e = true) ∧
    ((runDriver argsW true (fun _ => true)).1.filter Event.isStage =
      [Event.filter_tiles argsW.tiles_fname (filter_dir argsW.workspace_dir) argsW.bounding_box,
       Event.create_sift_features (filter_dir argsW.workspace_dir) (sift_dir argsW.workspace_dir)
         argsW.jar_file,
       Event.match_sift_features (filter_dir argsW.workspace_dir) (sift_dir argsW.workspace_dir)
         (match_dir argsW.workspace_dir) argsW.jar_file,
       Event.json_concat (match_dir argsW.workspace_dir)
         (correspondent_fname argsW.workspace_dir),
       Event.optimize_montage_transform (correspondent_fname argsW.workspace_dir)
         argsW.tiles_fname (optmon_fname argsW.workspace_dir) argsW.jar_file] ∧
     (runDriver argsW true (fun _ => true)).2 = true) :=
  ⟨fun _ => rfl, driver_invokes_stages_in_order argsW true (fun _ => true) (fun _ => rfl)⟩

/-- C3: whenever the optimization stage is invoked, its tile-spec
argument is the original, caller-supplied tile-spec path
(`args.tiles_fname`), not the filtered directory produced by the filter
stage. -/
theorem optimization_receives_original_tilespec (args : Args) (dirExists : Bool)
    (ok : Event → Bool) (c t o j : String)
    (h : Event.optimize_montage_transform c t o j ∈ (runDriver args dirExists ok).1) :
    t = args.tiles_fname ∧ c = correspondent_fname args.workspace_dir ∧
      o = optmon_fname args.workspace_dir ∧ j = args.jar_file := by
  have hp := runSeq_mem h
  cases dirExists <;> simp [plannedEvents] at hp <;> tauto

theorem optimization_receives_original_tilespec_witness :
    (Event.optimize_montage_transform "./all_correspondent.json" "tiles.json"
        "./optimized_montage.json" "../target/render-0.0.1-SNAPSHOT.jar" ∈
      (runDriver argsW true (fun _ => true)).1) ∧
    ("tiles.json" = argsW.tiles_fname ∧
      "./all_correspondent.json" = correspondent_fname argsW.workspace_dir ∧
      "./optimized_montage.json" = optmon_fname argsW.workspace_dir ∧
      "../target/render-0.0.1-SNAPSHOT.jar" = argsW.jar_file) :=
  ⟨by decide,
   optimization_receives_original_tilespec argsW true (fun _ => true)
     "./all_correspondent.json" "tiles.json" "./optimized_montage.json"
     "../target/render-0.0.1-SNAPSHOT.jar" (by decide)⟩

/-- C10: the bounding-box string, whatever its content, is forwarded
verbatim as the third argument of the `filter_tiles` invocation; the
orchestrator itself performs no parsing or validation of it (argparse
stores it as a plain string), so a run with an arbitrary, even malformed,
bounding-box string still performs the full pipeline when every stage
succeeds. -/
theorem bounding_box_forwarded_verbatim (args : Args) (dirExists : Bool) :
    Event.filter_tiles args.tiles_fname (filter_dir args.workspace_dir) args.bounding_box ∈
      (runDriver args dirExists (fun _ => true)).1 ∧
    (runDriver args dirExists (fun _ => true)).2 = true := by
  have hall := runSeq_all_ok (fun _ => true)
    (plannedEvents args dirExists) (fun _ _ => rfl)
  unfold runDriver
  rw [hall]
  refine ⟨?_, rfl⟩
  cases dirExists <;> simp [plannedEvents]

/-- C1: no run of the driver ever performs a render invocation — the
trace of every run, for every argument configuration (in particular with
the render flag set), contains no render event.  The script parses the
render flag and output file name but never reads them again; execution
ends after `optimize_montage_transform`. -/
theorem driver_performs_no_render (args : Args) (dirExists : Bool) (ok : Event → Bool) :
    ((runDriver args dirExists ok).1.filter Event.isRender) = [] := by
  rw [List.filter_eq_nil_iff]
  intro a ha
  have hp : a ∈ plannedEvents args dirExists := runSeq_mem ha
  cases dirExists
  · simp only [plannedEvents, Bool.false_eq_true, if_false, List.singleton_append,
      List.mem_cons, List.not_mem_nil, or_false] at hp
    rcases hp with rfl | rfl | rfl | rfl | rfl | rfl <;> simp [Event.isRender]
  · simp only [plannedEvents, if_true, List.nil_append, List.mem_cons, List.not_mem_nil,
      or_false] at hp
    rcases hp with rfl | rfl | rfl | rfl | rfl <;> simp [Event.isRender]

/-- C4: if any invocation of the run fails, the run halts right after the
failing invocation: the process exits non-zero, every invocation before
the failing one succeeded, the failing one is the last entry of the
trace, and none of the invocations planned after it is performed.  The
trace is exactly the successful prelude plus the failing invocation, so
earlier stages' artifacts are left in place: no cleanup, catch or retry
invocation appears. -/
theorem first_failure_halts_pipeline (args : Args) (dirExists : Bool) (ok : Event → Bool)
    (h : ∃ e ∈ plannedEvents args dirExists, ok e = false) :
    (runDriver args dirExists ok).2 = false ∧
    ∃ pre fe post, plannedEvents args dirExists = pre ++ fe :: post ∧
      (∀ x ∈ pre, ok x = true) ∧ ok fe = false ∧
      (runDriver args dirExists ok).1 = pre ++ [fe] := by
  have hfalse : (runDriver args dirExists ok).2 = false := by
    obtain ⟨e, he, hoke⟩ := h
    cases hb : (runDriver args dirExists ok).2 with
    | false => rfl
    | true =>
      have := runSeq_true_all ok (plannedEvents args dirExists) hb e he
      rw [this] at hoke
      exact absurd hoke (by simp)
  exact ⟨hfalse, runSeq_false hfalse⟩

/-- An environment in which the concatenation stage fails and every other
invocation succeeds. -/
def okFailConcat : Event → Bool
  | .json_concat _ _ => false
  | _ => true

theorem first_failure_halts_pipeline_witness :
    (∃ e ∈ plannedEvents argsW true, okFailConcat e = false) ∧
    ((runDriver argsW true okFailConcat).2 = false ∧
     ∃ pre fe post, plannedEvents argsW true = pre ++ fe :: post ∧
       (∀ x ∈ pre, okFailConcat x = true) ∧ okFailConcat fe = false ∧
       (runDriver argsW true okFailConcat).1 = pre ++ [fe]) :=
  ⟨⟨Event.json_concat (match_dir argsW.workspace_dir)
      (correspondent_fname argsW.workspace_dir), by decide, by decide⟩,
   first_failure_halts_pipeline argsW true okFailConcat
     ⟨Event.json_concat (match_dir argsW.workspace_dir)
        (correspondent_fname argsW.workspace_dir), by decide, by decide⟩⟩

/-- C5: for a workspace directory that is non-empty and does not end in a
path separator, the output paths handed to the five stages are exactly
`W/filterd`, `W/sifts`, `W/sift_matches`, `W/all_correspondent.json` and
`W/optimized_montage.json`, the fixed relative names joined under the
workspace directory. -/
theorem stage_output_paths_under_workspace (args : Args) (dirExists : Bool)
    (h1 : args.workspace_dir ≠ "") (h2 : endsWithSlash args.workspace_dir = false) :
    (runDriver args dirExists (fun _ => true)).1.filterMap Event.stageOutput =
      [args.workspace_dir ++ "/filterd",
       args.workspace_dir ++ "/sifts",
       args.workspace_dir ++ "/sift_matches",
       args.workspace_dir ++ "/all_correspondent.json",
       args.workspace_dir ++ "/optimized_montage.json"] := by
  have hall := runSeq_all_ok (fun _ => true)
    (plannedEvents args dirExists) (fun _ _ => rfl)
  unfold runDriver
  rw [hall]
  have e1 := osPathJoin_eq "filterd" h1 h2 (by decide)
  have e2 := osPathJoin_eq "sifts" h1 h2 (by decide)
  have e3 := osPathJoin_eq "sift_matches" h1 h2 (by decide)
  have e4 := osPathJoin_eq "all_correspondent.json" h1 h2 (by decide)
  have e5 := osPathJoin_eq "optimized_montage.json" h1 h2 (by decide)
  have hsplit : ∀ s t u : String, s ++ t ++ u = s ++ (t ++ u) := by
    intro s t u
    apply String.ext
    simp [String.data_append]
  cases dirExists <;>
    simp [plannedEvents, Event.stageOutput, filter_dir, sift_dir, match_dir,
      correspondent_fname, optmon_fname, e1, e2, e3, e4, e5, hsplit]

theorem stage_output_paths_under_workspace_witness :
    (argsW.workspace_dir ≠ "" ∧ endsWithSlash argsW.workspace_dir = false) ∧
    (runDriver argsW true (fun _ => true)).1.filterMap Event.stageOutput =
      [argsW.workspace_dir ++ "/filterd",
       argsW.workspace_dir ++ "/sifts",
       argsW.workspace_dir ++ "/sift_matches",
       argsW.workspace_dir ++ "/all_correspondent.json",
       argsW.workspace_dir ++ "/optimized_montage.json"] :=
  ⟨⟨by decide, by decide⟩,
   stage_output_paths_under_workspace argsW true (by decide) (by decide)⟩

/-- C7: for every workspace directory, the five output paths the driver
derives (filter directory, sift directory, match directory,
correspondence file, optimized montage file) are pairwise distinct, so no
two stages are handed the same output path. -/
theorem stage_output_paths_pairwise_distinct (w : String) :
    filter_dir w ≠ sift_dir w ∧ filter_dir w ≠ match_dir w ∧
    filter_dir w ≠ correspondent_fname w ∧ filter_dir w ≠ optmon_fname w ∧
    sift_dir w ≠ match_dir w ∧ sift_dir w ≠ correspondent_fname w ∧
    sift_dir w ≠ optmon_fname w ∧ match_dir w ≠ correspondent_fname w ∧
    match_dir w ≠ optmon_fname w ∧ correspondent_fname w ≠ optmon_fname w := by
  unfold filter_dir sift_dir match_dir correspondent_fname optmon_fname
  refine ⟨?_, ?_, ?_, ?_, ?_, ?_, ?_, ?_, ?_, ?_⟩ <;>
    exact osPathJoin_ne w (by decide) (by decide) (by decide)

/-- C6: the workspace-directory step never raises: it leaves the
filesystem untouched when the directory already exists, and otherwise
creates the directory together with every missing ancestor, so in all
cases the directory exists afterwards. -/
theorem workspace_dir_creation_idempotent (fs : List (List String)) (cs : List String)
    (hne : cs ≠ []) :
    ∃ fs', ensure_workspace_dir fs cs = Except.ok fs' ∧ cs ∈ fs' ∧
      (cs ∈ fs → fs' = fs) ∧ (cs ∉ fs → ∀ p ∈ pathAncestors cs, p ∈ fs') := by
  by_cases h : cs ∈ fs
  · exact ⟨fs, by simp [ensure_workspace_dir, h], h, fun _ => rfl, fun hc => absurd h hc⟩
  · refine ⟨fs ++ (pathAncestors cs).filter (fun p => decide (p ∉ fs)), ?_, ?_,
      fun hc => absurd hc h, ?_⟩
    · simp [ensure_workspace_dir, makedirs, h]
    · apply List.mem_append_right
      apply List.mem_filter.mpr
      refine ⟨?_, by simp [h]⟩
      have hlen : 0 < cs.length := List.length_pos.mpr hne
      refine List.mem_map.mpr ⟨cs.length - 1, List.mem_range.mpr (by omega), ?_⟩
      rw [Nat.sub_add_cancel hlen]
      exact List.take_length cs
    · intro _ p hp
      by_cases hpf : p ∈ fs
      · exact List.mem_append_left _ hpf
      · exact List.mem_append_right _ (List.mem_filter.mpr ⟨hp, by simp [hpf]⟩)

theorem workspace_dir_creation_idempotent_witness :
    (["home", "user"] : List String) ≠ [] ∧
    ∃ fs', ensure_workspace_dir [] ["home", "user"] = Except.ok fs' ∧
      ["home", "user"] ∈ fs' ∧
      (["home", "user"] ∈ ([] : List (List String)) → fs' = []) ∧
      (["home", "user"] ∉ ([] : List (List String)) →
        ∀ p ∈ pathAncestors ["home", "user"], p ∈ fs') :=
  ⟨by decide, workspace_dir_creation_idempotent [] ["home", "user"] (by decide)⟩

/-- C8: on a platform whose signed word has `n` bits, the default
bounding-box string is the four platform numeric extremes in the order
minimum, maximum, minimum, maximum; the `Args` default uses it (with the
64-bit `sys.maxint`), and on a 64-bit platform it is the concrete
space-separated string of the four extremes. -/
theorem default_bounding_box_is_unbounded (n : Nat) (t : String) :
    default_bounding_box (sysMaxint n) =
      toString (intMin n) ++ " " ++ toString (intMax n) ++ " " ++
        toString (intMin n) ++ " " ++ toString (intMax n) ∧
    ({ tiles_fname := t } : Args).bounding_box = default_bounding_box (sysMaxint 64) ∧
    default_bounding_box (sysMaxint 64) =
      "-9223372036854775808 9223372036854775807 -9223372036854775808 9223372036854775807" := by
  refine ⟨?_, rfl, by decide⟩
  have h1 : -(sysMaxint n) - 1 = intMin n := by
    unfold sysMaxint intMin
    ring
  have h2 : sysMaxint n = intMax n := rfl
  rw [default_bounding_box, h1, h2]

/-- A run in which the caller-supplied tile-spec path textually coincides
with the filter stage's output directory. -/
def collisionArgs : Args := { tiles_fname := "./filterd", workspace_dir := "." }

/-- C9 counterexample: the claim "the input tile-spec path is never an
output path of any operation the orchestrator performs" fails on the run
with tile-spec path `./filterd` and workspace directory `.`: there the
filter stage is invoked with the tile-spec path as its output directory. -/
theorem tilespec_as_output_counterexample :
    collisionArgs.tiles_fname ∈ outputsOf (runDriver collisionArgs true (fun _ => true)).1 := by
  decide

/-- C9 amended: every output-position path of a run is the workspace
directory or one of the five derived workspace paths; hence whenever the
caller-supplied tile-spec path does not textually coincide with any of
those, it is never an output path of any invocation — it is only ever
passed as a read-only input (to the filter and optimization stages). -/
theorem tilespec_never_an_output_path (args : Args) (dirExists : Bool) (ok : Event → Bool)
    (h : args.tiles_fname ∉ workspacePaths args.workspace_dir) :
    args.tiles_fname ∉ outputsOf (runDriver args dirExists ok).1 := by
  intro hmem
  obtain ⟨e, he, hx⟩ := mem_outputsOf hmem
  have hp : e ∈ plannedEvents args dirExists := runSeq_mem he
  apply h
  cases dirExists
  · simp only [plannedEvents, Bool.false_eq_true, if_false, List.singleton_append,
      List.mem_cons, List.not_mem_nil, or_false] at hp
    rcases hp with rfl | rfl | rfl | rfl | rfl | rfl <;>
      simp only [Event.outputPaths, List.mem_singleton] at hx <;>
      simp [hx, workspacePaths]
  · simp only [plannedEvents, if_true, List.nil_append, List.mem_cons, List.not_mem_nil,
      or_false] at hp
    rcases hp with rfl | rfl | rfl | rfl | rfl <;>
      simp only [Event.outputPaths, List.mem_singleton] at hx <;>
      simp [hx, workspacePaths]

theorem tilespec_never_an_output_path_witness :
    (argsW.tiles_fname ∉ workspacePaths argsW.workspace_dir) ∧
    argsW.tiles_fname ∉ outputsOf (runDriver argsW false (fun _ => true)).1 :=
  ⟨by decide, tilespec_never_an_output_path argsW false (fun _ => true) (by decide)⟩
